import Mathlib

/-!
Verification development for a presentation-document editor consisting of a
container parser (PPTXParser), a mutation/undo engine (PPTXEditor and
ChangeTracker) and a re-encoder (PPTXExporter).

The definitions below are shallow embeddings of the TypeScript sources:
pure functions become Lean functions, mutable class state becomes explicit
state passing on structures, and JavaScript object aliasing — where it is
observable — is made explicit through numeric references into heaps that are
part of the editor state.  JavaScript strings are modelled as `String` or
`List Char`, JS numbers that carry lengths as `ℚ`, and fallible code returns
`Option` or `Except`.
-/

/-! ## Data model (src/types/index.ts, reduced to the fields the engine reads)

An `Element` is the editor-side view of a slide element.  In the source an
element holds `content`, `position` and `size` as nested mutable objects;
a shallow spread copy (`\x7b...element\x7d`) copies the references to those nested
objects, not their contents.  To model that observably shared structure the
nested objects live in heaps (`contentHeap`, `posHeap`, `sizeHeap`) on the
editor state and the element stores their indices.  `style` is only ever
replaced wholesale (`element.style = \x7b...\x7d`), never mutated in place, so it is
held by value. -/

structure Element where
  id : String
  etype : String
  contentRef : Nat
  posRef : Nat
  sizeRef : Nat
  style : List (String × String)
deriving Repr, DecidableEq

/-- A change record (src/types/index.ts `ChangeRecord`).  The `id` and
`timestamp` fields, generated from the clock and the random number generator,
carry no behavioural content and are omitted. -/
structure ChangeRecord where
  rtype : String
  elementId : String
  slideId : String
  previousState : Option Element
  newState : Option Element
  description : String
deriving Repr, DecidableEq

/-! ## ChangeTracker (src/core/ChangeTracker.ts)

The class fields `changes`, `maxUndoSteps`, `currentIndex` become a state
structure; each method becomes a function from state to state (methods that
also return a value return a pair). `currentIndex` is a JS number that can be
`-1`, so it is an `Int`. -/

structure TrackerState where
  changes : List ChangeRecord
  maxUndoSteps : Nat
  currentIndex : Int
deriving Repr, DecidableEq

namespace ChangeTracker

/-- `new ChangeTracker(maxUndoSteps)` -/
def mkTracker (maxUndoSteps : Nat) : TrackerState :=
  { changes := [], maxUndoSteps := maxUndoSteps, currentIndex := -1 }

/-- `recordChange`: truncate after the cursor (`slice(0, currentIndex+1)`),
push, advance the cursor; evict the oldest (`shift()`) and decrement the
cursor when capacity is exceeded. -/
def recordChange (s : TrackerState) (c : ChangeRecord) : TrackerState :=
  let changes := s.changes.take (s.currentIndex + 1).toNat ++ [c]
  let currentIndex := s.currentIndex + 1
  if changes.length > s.maxUndoSteps then
    { s with changes := changes.drop 1, currentIndex := currentIndex - 1 }
  else
    { s with changes := changes, currentIndex := currentIndex }

def canUndo (s : TrackerState) : Bool :=
  s.currentIndex ≥ 0

def canRedo (s : TrackerState) : Bool :=
  s.currentIndex < (s.changes.length : Int) - 1

/-- `undo()`: returns the record at the cursor (or `null`) and the state after. -/
def undoT (s : TrackerState) : Option ChangeRecord × TrackerState :=
  if canUndo s then
    (s.changes.get? s.currentIndex.toNat, { s with currentIndex := s.currentIndex - 1 })
  else
    (none, s)

/-- `redo()`: advances the cursor and returns the record now pointed to (or `null`). -/
def redoT (s : TrackerState) : Option ChangeRecord × TrackerState :=
  if canRedo s then
    (s.changes.get? (s.currentIndex + 1).toNat, { s with currentIndex := s.currentIndex + 1 })
  else
    (none, s)

def getChangeHistory (s : TrackerState) : List ChangeRecord :=
  s.changes

def clearHistory (s : TrackerState) : TrackerState :=
  { s with changes := [], currentIndex := -1 }

/-- `revertToChange(changeIndex)`: throws on an invalid index, otherwise
returns the changes after the index in reverse and moves the cursor. -/
def revertToChange (s : TrackerState) (changeIndex : Int) :
    Except String (List ChangeRecord × TrackerState) :=
  if changeIndex < 0 ∨ changeIndex ≥ (s.changes.length : Int) then
    .error "Invalid change index"
  else
    .ok ((s.changes.drop (changeIndex + 1).toNat).reverse,
         { s with currentIndex := changeIndex })

/-- `revertAllChanges()`: returns all changes in reverse and clears the history. -/
def revertAllChanges (s : TrackerState) : List ChangeRecord × TrackerState :=
  (s.changes.reverse, clearHistory s)

def getChangesForSlide (s : TrackerState) (slideId : String) : List ChangeRecord :=
  s.changes.filter (fun c => c.slideId = slideId)

end ChangeTracker

example :
    (ChangeTracker.recordChange (ChangeTracker.mkTracker 2)
      ⟨"add", "e1", "s1", none, none, "d"⟩).changes.length = 1 := by decide

example :
    (ChangeTracker.undoT (ChangeTracker.mkTracker 2)).1 = none := by decide

/-! ## Document model and editor (src/core/PPTXEditor.ts)

The editor holds a document (an ordered list of slides, each an ordered list
of elements), the index of the current slide, the option flags that matter to
the engine, and the change tracker.  The three heaps give identity to the
nested `content`, `position` and `size` objects: `element.content.text = t`
becomes an update of `contentHeap` at `element.contentRef`, which every
element value holding that reference observes. -/

structure EditorSlide where
  id : String
  slideNumber : Nat
  elements : List Element
deriving Repr, DecidableEq

structure EditorDoc where
  slides : List EditorSlide
deriving Repr, DecidableEq

structure EditorState where
  contentHeap : List String
  posHeap : List (ℚ × ℚ)
  sizeHeap : List (ℚ × ℚ)
  doc : Option EditorDoc
  currentSlide : Nat
  enableUndoRedo : Bool
  tracker : TrackerState
deriving Repr, DecidableEq

namespace PPTXEditor

/-- `getCurrentSlide()`: `this.document.slides[this.state.currentSlide] || null`. -/
def getCurrentSlide (s : EditorState) : Option EditorSlide :=
  s.doc.bind fun d => d.slides.get? s.currentSlide

/-- `recordChange` (the editor-level wrapper): skipped when undo/redo is disabled. -/
def recordChangeE (s : EditorState) (rtype elementId slideId : String)
    (previousState newState : Option Element) (description : String) : EditorState :=
  if s.enableUndoRedo then
    { s with tracker := ChangeTracker.recordChange s.tracker
                          ⟨rtype, elementId, slideId, previousState, newState, description⟩ }
  else s

/-- Replace the element with the given id on slide `slideIdx` of the document. -/
def setElementInDoc (d : EditorDoc) (slideIdx : Nat) (elementId : String)
    (e : Element) : EditorDoc :=
  match d.slides.get? slideIdx with
  | none => d
  | some sl =>
    match sl.elements.findIdx? (fun x => x.id = elementId) with
    | none => d
    | some i => { slides := d.slides.set slideIdx { sl with elements := sl.elements.set i e } }

/-- `updateText(elementId, newText)`: no-ops when the document, the current
slide or the element is missing or is not a text element; otherwise takes the
shallow copy `previousState := \x7b...element\x7d` (which shares the content
object), mutates `element.content.text` (a heap write), and records an
update whose `newState` is the live element. -/
def updateText (s : EditorState) (elementId newText : String) : EditorState :=
  match s.doc with
  | none => s
  | some _ =>
    match getCurrentSlide s with
    | none => s
    | some slide =>
      match slide.elements.find? (fun e => e.id = elementId) with
      | none => s
      | some element =>
        if element.etype ≠ "text" then s
        else
          let previousState := element
          let s := { s with contentHeap := s.contentHeap.set element.contentRef newText }
          recordChangeE s "update" elementId slide.id (some previousState) (some element)
            ("Updated text: " ++ newText)

/-- `updateElementPosition(elementId, x, y)`: mutates the shared position object. -/
def updateElementPosition (s : EditorState) (elementId : String) (x y : ℚ) : EditorState :=
  match s.doc with
  | none => s
  | some _ =>
    match getCurrentSlide s with
    | none => s
    | some slide =>
      match slide.elements.find? (fun e => e.id = elementId) with
      | none => s
      | some element =>
        let previousState := element
        let s := { s with posHeap := s.posHeap.set element.posRef (x, y) }
        recordChangeE s "update" elementId slide.id (some previousState) (some element)
          ("Moved element to (" ++ toString x ++ ", " ++ toString y ++ ")")

/-- `updateElementSize(elementId, width, height)`: mutates the shared size object. -/
def updateElementSize (s : EditorState) (elementId : String) (width height : ℚ) : EditorState :=
  match s.doc with
  | none => s
  | some _ =>
    match getCurrentSlide s with
    | none => s
    | some slide =>
      match slide.elements.find? (fun e => e.id = elementId) with
      | none => s
      | some element =>
        let previousState := element
        let s := { s with sizeHeap := s.sizeHeap.set element.sizeRef (width, height) }
        recordChangeE s "update" elementId slide.id (some previousState) (some element)
          ("Resized element to " ++ toString width ++ "x" ++ toString height)

/-- Shallow spread merge `\x7b...a, ...b\x7d` on attribute maps: keys of `b` win. -/
def mergeStyle (a b : List (String × String)) : List (String × String) :=
  a.filter (fun p => ¬ b.any (fun q => q.1 = p.1)) ++ b

/-- `updateElementStyle(elementId, style)`: replaces `element.style` with the
shallow merge; the previous style object survives in the shallow copy. -/
def updateElementStyle (s : EditorState) (elementId : String)
    (style : List (String × String)) : EditorState :=
  match s.doc with
  | none => s
  | some d =>
    match getCurrentSlide s with
    | none => s
    | some slide =>
      match slide.elements.find? (fun e => e.id = elementId) with
      | none => s
      | some element =>
        let previousState := element
        let newElement := { element with style := mergeStyle element.style style }
        let s := { s with doc := some (setElementInDoc d s.currentSlide elementId newElement) }
        recordChangeE s "update" elementId slide.id (some previousState) (some newElement)
          "Updated element style"

/-- `addTextElement(text, x, y, width, height)`: throws when there is no
document or no current slide; otherwise allocates fresh content, position and
size objects, appends the element and records an add.  The generated id
(`Date.now()` plus a random suffix) is modelled by the `freshId` parameter. -/
def addTextElement (s : EditorState) (text : String) (x y width height : ℚ)
    (freshId : String) : Except String (String × EditorState) :=
  match s.doc with
  | none => .error "No document loaded"
  | some d =>
    match getCurrentSlide s with
    | none => .error "No current slide"
    | some slide =>
      let newElement : Element :=
        { id := freshId, etype := "text",
          contentRef := s.contentHeap.length,
          posRef := s.posHeap.length,
          sizeRef := s.sizeHeap.length,
          style := [("fontSize", "14"), ("fontFamily", "Arial"), ("color", "#000000")] }
      let s := { s with
        contentHeap := s.contentHeap ++ [text],
        posHeap := s.posHeap ++ [(x, y)],
        sizeHeap := s.sizeHeap ++ [(width, height)],
        doc := some { slides := d.slides.set s.currentSlide
                        { slide with elements := slide.elements ++ [newElement] } } }
      let s := recordChangeE s "add" freshId slide.id none (some newElement)
        ("Added text: " ++ text)
      .ok (freshId, s)

/-- `deleteElement(elementId)`: no-ops when the document, the current slide or
the element is missing; otherwise splices the element out and records a
delete whose `previousState` is the removed element. -/
def deleteElement (s : EditorState) (elementId : String) : EditorState :=
  match s.doc with
  | none => s
  | some d =>
    match getCurrentSlide s with
    | none => s
    | some slide =>
      match slide.elements.findIdx? (fun e => e.id = elementId) with
      | none => s
      | some i =>
        match slide.elements.get? i with
        | none => s
        | some deletedElement =>
          let s := { s with doc := some { slides := d.slides.set s.currentSlide
                                            { slide with elements := slide.elements.eraseIdx i } } }
          recordChangeE s "delete" elementId slide.id (some deletedElement) none
            ("Deleted " ++ deletedElement.etype ++ " element")

/-- `ChangeTracker.revertChange(document, change)` (a document-level helper on
the tracker class): undoes one record on the document. -/
def revertChangeDoc (d : EditorDoc) (c : ChangeRecord) : EditorDoc :=
  match d.slides.findIdx? (fun sl => sl.id = c.slideId) with
  | none => d
  | some si =>
    match d.slides.get? si with
    | none => d
    | some sl =>
      let sl' :=
        if c.rtype = "add" then
          match sl.elements.findIdx? (fun e => e.id = c.elementId) with
          | none => sl
          | some i => { sl with elements := sl.elements.eraseIdx i }
        else if c.rtype = "update" then
          match c.previousState with
          | none => sl
          | some prev =>
            match sl.elements.findIdx? (fun e => e.id = c.elementId) with
            | none => sl
            | some i => { sl with elements := sl.elements.set i prev }
        else if c.rtype = "delete" then
          match c.previousState with
          | none => sl
          | some prev => { sl with elements := sl.elements ++ [prev] }
        else sl
      { slides := d.slides.set si sl' }

/-- `ChangeTracker.applyChange(document, change)`: redoes one record. -/
def applyChangeDoc (d : EditorDoc) (c : ChangeRecord) : EditorDoc :=
  match d.slides.findIdx? (fun sl => sl.id = c.slideId) with
  | none => d
  | some si =>
    match d.slides.get? si with
    | none => d
    | some sl =>
      let sl' :=
        if c.rtype = "add" then
          match c.newState with
          | none => sl
          | some ns => { sl with elements := sl.elements ++ [ns] }
        else if c.rtype = "update" then
          match c.previousState, c.newState with
          | some _, some ns =>
            match sl.elements.findIdx? (fun e => e.id = c.elementId) with
            | none => sl
            | some i => { sl with elements := sl.elements.set i ns }
          | _, _ => sl
        else if c.rtype = "delete" then
          match c.previousState with
          | none => sl
          | some _ =>
            match sl.elements.findIdx? (fun e => e.id = c.elementId) with
            | none => sl
            | some i => { sl with elements := sl.elements.eraseIdx i }
        else sl
      { slides := d.slides.set si sl' }

/-- `undo()`: pops a record from the tracker and reverts it on the document;
returns whether anything was undone. -/
def undoE (s : EditorState) : Bool × EditorState :=
  if ¬ s.enableUndoRedo then (false, s)
  else
    match ChangeTracker.undoT s.tracker with
    | (none, tr) => (false, { s with tracker := tr })
    | (some c, tr) =>
      let s := { s with tracker := tr }
      match s.doc with
      | none => (true, s)
      | some d => (true, { s with doc := some (revertChangeDoc d c) })

/-- `redo()`: advances the tracker and re-applies the record on the document. -/
def redoE (s : EditorState) : Bool × EditorState :=
  if ¬ s.enableUndoRedo then (false, s)
  else
    match ChangeTracker.redoT s.tracker with
    | (none, tr) => (false, { s with tracker := tr })
    | (some c, tr) =>
      let s := { s with tracker := tr }
      match s.doc with
      | none => (true, s)
      | some d => (true, { s with doc := some (applyChangeDoc d c) })

def getChangeHistoryE (s : EditorState) : List ChangeRecord :=
  ChangeTracker.getChangeHistory s.tracker

/-- Read the text of the element with the given id on the given slide, through
its content reference (`element.content.text`). -/
def elementText (s : EditorState) (slideIdx : Nat) (elementId : String) : Option String :=
  s.doc.bind fun d =>
    (d.slides.get? slideIdx).bind fun sl =>
      (sl.elements.find? (fun e => e.id = elementId)).bind fun e =>
        s.contentHeap.get? e.contentRef

/-- Dereference a record state's `content.text` against the current heap. -/
def recordStateText (s : EditorState) (st : Option Element) : Option String :=
  st.bind fun e => s.contentHeap.get? e.contentRef

end PPTXEditor

/-! ## Part codec and slide decoder (src/core/PPTXParser.ts)

An XML part is a tree of element nodes (tag, attribute list, ordered
children) and text nodes; `xmlToObject` converts such a tree into the
JavaScript object shape the decoder consumes.  JS values appearing in that
shape are strings, arrays and string-keyed objects whose key list preserves
insertion order (as `Object.keys` does for string keys). -/

inductive XNode where
  | text (s : String)
  | elem (tag : String) (attrs : List (String × String)) (children : List XNode)
deriving Repr

inductive JVal where
  | str (s : String)
  | obj (fields : List (String × JVal))
  | arr (xs : List JVal)
deriving Repr

namespace PPTXParser

/-- `String.startsWith`, stated over the character lists so that closed
instances evaluate inside the kernel. -/
def strStartsWith (s p : String) : Bool :=
  p.toList.isPrefixOf s.toList

/-- `String.trim` (the whitespace classes relevant to XML text). -/
def jsTrim (s : String) : String :=
  let ws := fun c => c = ' ' ∨ c = '\t' ∨ c = '\n' ∨ c = '\r'
  String.mk (((s.toList.dropWhile ws).reverse.dropWhile ws).reverse)

/-- Append `v` to the group for `tag`, creating the group at the end on first
occurrence (the key order of a JS object follows first insertion). -/
def insertGrouped (acc : List (String × List JVal)) (tag : String) (v : JVal) :
    List (String × List JVal) :=
  if acc.any (fun p => p.1 = tag) then
    acc.map (fun p => if p.1 = tag then (p.1, p.2 ++ [v]) else p)
  else
    acc ++ [(tag, v :: [])]

/-- `xmlToObject`'s `processNode`, written with an explicit recursion-depth
fuel so that it is structurally recursive (any fuel at least the tree height
gives the function's value; concrete uses pass a sufficient constant).
A text node becomes its trimmed text; an element with only text children
collapses to the joined text (dropping any attributes, as the source does);
otherwise element children are grouped by tag name into arrays, losing the
interleaving of children with different tags. -/
def processNode (fuel : Nat) (n : XNode) : JVal :=
  match fuel, n with
  | 0, _ => .str ""
  | _ + 1, .text s => .str (jsTrim s)
  | fuel + 1, .elem _ attrs children =>
    let dollar : List (String × JVal) :=
      if attrs.length > 0 then
        [("$", .obj (attrs.map (fun a => (a.1, .str a.2))))]
      else []
    let textNodes := children.filter (fun c => match c with | .text _ => true | _ => false)
    let elementNodes := children.filter (fun c => match c with | .elem _ _ _ => true | _ => false)
    if textNodes.length > 0 ∧ elementNodes.length = 0 then
      .str (String.join (textNodes.map (fun c => match c with | .text s => jsTrim s | _ => "")))
    else
      let grouped := elementNodes.foldl
        (fun acc c => match c with
          | .elem tag _ _ => insertGrouped acc tag (processNode fuel c)
          | .text _ => acc)
        []
      .obj (dollar ++ grouped.map (fun p => (p.1, JVal.arr p.2)))

/-- `xmlToObject(xml)` applied to the document element. -/
def xmlToObject (fuel : Nat) (root : XNode) : JVal :=
  processNode fuel root

/-- JS property read `v[key]` on an object. -/
def getField (v : JVal) (key : String) : Option JVal :=
  match v with
  | .obj fields => (fields.find? (fun p => p.1 = key)).map (fun p => p.2)
  | _ => none

/-- `v[key]?.[0]`: first entry of the array stored under `key`. -/
def firstOf (v : JVal) (key : String) : Option JVal :=
  (getField v key).bind fun w =>
    match w with
    | .arr xs => xs.head?
    | _ => none

/-- `v.$`: the attribute object. -/
def dollarOf (v : JVal) : Option JVal :=
  getField v "$"

/-- Attribute read `d[name]` on an attribute object, as a string. -/
def attrOf (d : JVal) (name : String) : Option String :=
  match getField d name with
  | some (.str s) => some s
  | _ => none

/-- JS `parseInt` restricted to the decimal case: optional surrounding
whitespace and sign followed by a digit run; `none` models `NaN`. -/
def jsParseInt (s : String) : Option Int :=
  let cs := s.toList.dropWhile (fun c => c = ' ' ∨ c = '\t' ∨ c = '\n')
  let (sign, cs) :=
    match cs with
    | '-' :: rest => ((-1 : Int), rest)
    | '+' :: rest => ((1 : Int), rest)
    | _ => ((1 : Int), cs)
  let digits := cs.takeWhile Char.isDigit
  if digits.isEmpty then none
  else some (sign * (digits.foldl (fun acc c => acc * 10 + (c.toNat - '0'.toNat)) 0 : Nat))

/-- `1 EMU = 72/914400 points` (the fixed conversion ratio of the source). -/
def EMU_TO_POINTS : ℚ := 72 / 914400

/-- JS `a || b` for an optional string: missing or empty (falsy) falls back. -/
def orDefault (a : Option String) (b : String) : String :=
  match a with
  | some s => if s = "" then b else s
  | none => b

/-- `parsePosition(spPr)`: reads `a:xfrm/a:off/@x,@y`, defaulting to `'0'`,
and converts EMUs to points; `none` models the `NaN` a non-numeric attribute
would produce. -/
def parsePosition (spPr : JVal) : Option ℚ × Option ℚ :=
  let off := (firstOf spPr "a:xfrm").bind fun x => (firstOf x "a:off").bind dollarOf
  let xv := jsParseInt (orDefault (off.bind fun d => attrOf d "x") "0")
  let yv := jsParseInt (orDefault (off.bind fun d => attrOf d "y") "0")
  (xv.map (fun n => (n : ℚ) * EMU_TO_POINTS), yv.map (fun n => (n : ℚ) * EMU_TO_POINTS))

/-- `parseSize(spPr)`: reads `a:xfrm/a:ext/@cx,@cy` the same way. -/
def parseSize (spPr : JVal) : Option ℚ × Option ℚ :=
  let ext := (firstOf spPr "a:xfrm").bind fun x => (firstOf x "a:ext").bind dollarOf
  let wv := jsParseInt (orDefault (ext.bind fun d => attrOf d "cx") "0")
  let hv := jsParseInt (orDefault (ext.bind fun d => attrOf d "cy") "0")
  (wv.map (fun n => (n : ℚ) * EMU_TO_POINTS), hv.map (fun n => (n : ℚ) * EMU_TO_POINTS))

/-- `parseTextContent(txBody)`: paragraphs joined by newlines, runs
concatenated; a run's `a:t` entry is the string the codec produced (the
object fallbacks `textNode._` and `textNode.$.val` of the source are kept). -/
def parseTextContent (txBody : JVal) : String :=
  let paragraphs := match getField txBody "a:p" with
    | some (.arr xs) => xs
    | _ => []
  String.intercalate "\n" (paragraphs.map (fun p =>
    let runs := match getField p "a:r" with
      | some (.arr xs) => xs
      | _ => []
    String.join (runs.map (fun r =>
      match (getField r "a:t").bind (fun w => match w with | .arr xs => xs.head? | _ => none) with
      | some (.str s) => s
      | some v =>
        match getField v "_" with
        | some (.str s) => s
        | _ =>
          match (dollarOf v).bind (fun d => attrOf d "val") with
          | some s => s
          | none => ""
      | none => ""))))

/-- The style record the decoder produces. -/
structure PStyle where
  backgroundColor : Option String
  fontSize : Option ℚ
  color : Option String
deriving Repr, DecidableEq

/-- `parseElementStyle(spPr, txBody?)`.  The chains
`...['a:srgbClr']?.[0]?.$.val` throw a `TypeError` when the node exists but
carries no attributes; such an exception escapes to the per-element
`try/catch` of the caller, so it is modelled by `none` at this level. -/
def parseElementStyle (spPr : JVal) (txBody : Option JVal) : Option PStyle :=
  let bg : Option (Option String) :=
    match getField spPr "a:prstGeom" with
    | none => some none
    | some _ =>
      match firstOf spPr "a:solidFill" with
      | none => some none
      | some sf =>
        match firstOf sf "a:srgbClr" with
        | none => some none
        | some clr =>
          match dollarOf clr with
          | none => none
          | some d =>
            match attrOf d "val" with
            | some v => if v = "" then some none else some (some ("#" ++ v))
            | none => some none
  match bg with
  | none => none
  | some bgv =>
    let textPart : Option (Option ℚ × Option String) :=
      match txBody with
      | none => some (none, none)
      | some tb =>
        let paragraphs := match getField tb "a:p" with
          | some (.arr xs) => xs
          | _ => []
        match paragraphs.head? with
        | none => some (none, none)
        | some firstP =>
          let runs := match getField firstP "a:r" with
            | some (.arr xs) => xs
            | _ => []
          match runs.head? with
          | none => some (none, none)
          | some firstRun =>
            match firstOf firstRun "a:rPr" with
            | none => some (none, none)
            | some rPr =>
              let sz := (firstOf rPr "a:sz").bind dollarOf |>.bind fun d => attrOf d "val"
              let fontSize := match sz with
                | some v => if v = "" then none else (jsParseInt v).map (fun n => (n : ℚ) / 100)
                | none => none
              match firstOf rPr "a:solidFill" with
              | none => some (fontSize, none)
              | some sf =>
                match firstOf sf "a:srgbClr" with
                | none => some (fontSize, none)
                | some clr =>
                  match dollarOf clr with
                  | none => none
                  | some d =>
                    match attrOf d "val" with
                    | some v => if v = "" then some (fontSize, none)
                                else some (fontSize, some ("#" ++ v))
                    | none => some (fontSize, none)
    match textPart with
    | none => none
    | some (fs, col) => some { backgroundColor := bgv, fontSize := fs, color := col }

/-- The decoder's element record (the editable model the parser emits; the
`originalData` back-reference is not needed by the theorems and is omitted). -/
structure PElem where
  id : String
  etype : String
  x : Option ℚ
  y : Option ℚ
  width : Option ℚ
  height : Option ℚ
  shapeType : Option String
  textContent : String
  imageId : Option String
  style : PStyle
  zIndex : Nat
deriving Repr, DecidableEq

/-- `parseShapeElement(shape, index)`: requires `p:spPr`; `null` (from either
the explicit check or a caught exception) is `none`. -/
def parseShapeElement (shape : JVal) (index : Nat) : Option PElem :=
  match firstOf shape "p:spPr" with
  | none => none
  | some spPr =>
    let txBody := firstOf shape "p:txBody"
    let (px, py) := parsePosition spPr
    let (pw, ph) := parseSize spPr
    let textContent := match txBody with
      | some tb => parseTextContent tb
      | none => ""
    let shapeType : Option String :=
      match getField spPr "a:prstGeom" with
      | none => some "rect"
      | some _ =>
        match firstOf spPr "a:prstGeom" with
        | none => some "rect"
        | some g =>
          match dollarOf g with
          | none => none
          | some d => some (orDefault (attrOf d "prst") "rect")
    match shapeType with
    | none => none
    | some st =>
      match parseElementStyle spPr txBody with
      | none => none
      | some style =>
        some { id := "shape-" ++ toString index, etype := "shape",
               x := px, y := py, width := pw, height := ph,
               shapeType := some st, textContent := textContent,
               imageId := none, style := style, zIndex := 0 }

/-- `parsePictureElement(picture, index)`: requires `p:spPr` and `p:blipFill`;
the image id is `a:blip/@r:embed || @r:link`. -/
def parsePictureElement (picture : JVal) (index : Nat) : Option PElem :=
  match firstOf picture "p:spPr" with
  | none => none
  | some spPr =>
    match firstOf picture "p:blipFill" with
    | none => none
    | some blipFill =>
      let (px, py) := parsePosition spPr
      let (pw, ph) := parseSize spPr
      let blip := firstOf blipFill "a:blip"
      let imageId :=
        match (blip.bind dollarOf).bind (fun d => attrOf d "r:embed") with
        | some s => if s = "" then (blip.bind dollarOf).bind (fun d => attrOf d "r:link") else some s
        | none => (blip.bind dollarOf).bind (fun d => attrOf d "r:link")
      match parseElementStyle spPr none with
      | none => none
      | some style =>
        some { id := "picture-" ++ toString index, etype := "image",
               x := px, y := py, width := pw, height := ph,
               shapeType := none, textContent := "",
               imageId := imageId, style := style, zIndex := 0 }

/-- `parseTextBoxElement(textBox, index)`: requires `p:spPr` and `p:txBody`. -/
def parseTextBoxElement (textBox : JVal) (index : Nat) : Option PElem :=
  match firstOf textBox "p:spPr" with
  | none => none
  | some spPr =>
    match firstOf textBox "p:txBody" with
    | none => none
    | some txBody =>
      let (px, py) := parsePosition spPr
      let (pw, ph) := parseSize spPr
      match parseElementStyle spPr (some txBody) with
      | none => none
      | some style =>
        some { id := "textbox-" ++ toString index, etype := "text",
               x := px, y := py, width := pw, height := ph,
               shapeType := none, textContent := parseTextContent txBody,
               imageId := none, style := style, zIndex := 0 }

/-- The element-extraction loop of `parseSlide` over the `p:spTree` object:
`Object.keys(spTree)` filtered to `p:`-prefixed non-empty arrays, then for
each key all its nodes in sequence, dispatching on the key; every produced
element is stamped with the running `globalIndex` as its z-order.  (The
final sort by `originalIndex` in the source is a stable sort of an already
sorted list and is therefore the identity.) -/
def extractElements (spTree : JVal) : List PElem :=
  let fields := match spTree with
    | .obj fs => fs
    | _ => []
  let allChildNodes := fields.filter (fun p =>
    strStartsWith p.1 "p:" && (match p.2 with | .arr xs => xs.length > 0 | _ => false))
  let step := fun (acc : Nat × List PElem) (entry : String × JVal) =>
    let nodes := match entry.2 with
      | .arr xs => xs
      | _ => []
    nodes.foldl (fun (acc : Nat × List PElem) node =>
      let element : Option PElem :=
        if entry.1 = "p:sp" then parseShapeElement node acc.1
        else if entry.1 = "p:pic" then parsePictureElement node acc.1
        else if entry.1 = "p:txBox" then parseTextBoxElement node acc.1
        else none
      match element with
      | some e => (acc.1 + 1, acc.2 ++ [{ e with zIndex := acc.1 }])
      | none => acc) acc
  (allChildNodes.foldl step (0, [])).2

/-- The image-path resolution of `resolveImageData` (PPTXParser.ts):
`target.replace('../', 'ppt/')` for `../`-prefixed targets,
`target.replace('./', 'ppt/slides/')` for `./`-prefixed targets, and a
`ppt/` prefix for any other target not already starting with `ppt/`.
JS `String.replace` with a string pattern replaces the first occurrence. -/
def replaceFirstStr (s pat rep : List Char) : List Char :=
  match s with
  | [] => []
  | c :: rest =>
    if pat.isPrefixOf s then rep ++ s.drop pat.length
    else c :: replaceFirstStr rest pat rep

def resolveImagePath (targetPath : String) : String :=
  if strStartsWith targetPath "../" then
    String.mk (replaceFirstStr targetPath.toList "../".toList "ppt/".toList)
  else if strStartsWith targetPath "./" then
    String.mk (replaceFirstStr targetPath.toList "./".toList "ppt/slides/".toList)
  else if ¬ strStartsWith targetPath "ppt/" then
    "ppt/" ++ targetPath
  else
    targetPath

end PPTXParser

example : PPTXParser.resolveImagePath "../media/image1.png" = "ppt/media/image1.png" := by decide
example : PPTXParser.resolveImagePath "media/image1.png" = "ppt/media/image1.png" := by decide
example : PPTXParser.jsParseInt "914400" = some 914400 := by decide

/-! ## Re-encoder (src/core/PPTXExporter.ts)

The container is the zip archive: an ordered association of part paths to
part contents (bytes modelled as strings).  `exportPPTX` copies every
original part, rewrites each slide part through `updateSlideXML`, and then
rewrites the two metadata parts by regex substitution. -/

abbrev Container : Type := List (String × String)

/-- `zip.file(path)` (read): content of the part at `path`, if present. -/
def getPart (c : Container) (path : String) : Option String :=
  (c.find? (fun p => p.1 = path)).map (fun p => p.2)

/-- `zip.file(path, content)` (write): overwrite the part or append it. -/
def setPart (c : Container) (path : String) (content : String) : Container :=
  if c.any (fun p => p.1 = path) then
    c.map (fun p => if p.1 = path then (p.1, content) else p)
  else
    c ++ [(path, content)]

namespace PPTXExporter

/-- The document view the exporter reads: per slide its number and its
elements (type tag and current text), plus the metadata fields it rewrites. -/
structure ExpSlide where
  slideNumber : Nat
  elements : List PPTXParser.PElem
deriving Repr, DecidableEq

structure ExpMetadata where
  title : String
  subject : String
deriving Repr, DecidableEq

structure ExpDoc where
  slides : List ExpSlide
  metadata : ExpMetadata
deriving Repr, DecidableEq

/-- Match of the regex `<a:t[^>]*>.*?</a:t>` at the start of `s`: the literal
`<a:t`, then `[^>]*` up to the first `>`, then the lazy `.*?` — the shortest
newline-free run — up to the literal `</a:t>`.  Returns the match length. -/
def lazyFindClose : List Char → Option Nat
  | [] => none
  | c :: rest =>
    if "</a:t>".toList.isPrefixOf (c :: rest) then some 0
    else if c = '\n' then none
    else (lazyFindClose rest).map (fun n => n + 1)

def matchAT (s : List Char) : Option Nat :=
  if "<a:t".toList.isPrefixOf s then
    let afterOpen := s.drop 4
    match afterOpen.findIdx? (fun c => c = '>') with
    | none => none
    | some gi =>
      match lazyFindClose (afterOpen.drop (gi + 1)) with
      | none => none
      | some k => some (4 + gi + 1 + k + 6)
  else none

/-- `xml.replace(/<a:t[^>]*>.*?<\/a:t>/g, replacement)`: scan left to right,
replacing every non-overlapping match and resuming after it.  The fuel is an
upper bound on the scan steps; any fuel at least `s.length` computes the
replacement (every step consumes at least one character). -/
def replaceATg (fuel : Nat) (s : List Char) (replacement : List Char) : List Char :=
  match fuel, s with
  | 0, s => s
  | _, [] => []
  | fuel + 1, c :: rest =>
    match matchAT (c :: rest) with
    | some n => replacement ++ replaceATg fuel ((c :: rest).drop n) replacement
    | none => c :: replaceATg fuel rest replacement

/-- `updateTextElement(xml, element)`: every `<a:t...>...</a:t>` in the slide
XML becomes `<a:t>` + the element's text + `</a:t>`.  (The `$`-escape
sequences of JS string replacement do not arise: element texts here contain
no dollar sign.) -/
def updateTextElement (xml : String) (element : PPTXParser.PElem) : String :=
  String.mk (replaceATg xml.toList.length xml.toList
    ("<a:t>".toList ++ element.textContent.toList ++ "</a:t>".toList))

/-- `updateImageElement(xml, element)`: a no-op. -/
def updateImageElement (xml : String) (_element : PPTXParser.PElem) : String :=
  xml

/-- `updateShapeElement(xml, element)`: a no-op. -/
def updateShapeElement (xml : String) (_element : PPTXParser.PElem) : String :=
  xml

/-- `updateSlideXML(originalXml, slide)`: folds the per-element updates over
every element of the slide, whatever its change status. -/
def updateSlideXML (originalXml : String) (slide : ExpSlide) : String :=
  slide.elements.foldl (fun xml element =>
    if element.etype = "text" then updateTextElement xml element
    else if element.etype = "image" then updateImageElement xml element
    else if element.etype = "shape" then updateShapeElement xml element
    else xml) originalXml

/-- `findSlidePath(slideNumber)`. -/
def findSlidePath (slideNumber : Nat) : String :=
  "ppt/slides/slide" ++ toString slideNumber ++ ".xml"

/-- `updateSlide(slide)`: reads the original slide part and writes the
rewritten XML into the output container; absent parts are skipped. -/
def updateSlide (z : Container) (originalZip : Container) (slide : ExpSlide) : Container :=
  match getPart originalZip (findSlidePath slide.slideNumber) with
  | none => z
  | some originalSlideXml =>
    setPart z (findSlidePath slide.slideNumber) (updateSlideXML originalSlideXml slide)

def updateSlides (z : Container) (originalZip : Container) (doc : ExpDoc) : Container :=
  doc.slides.foldl (fun z sl => updateSlide z originalZip sl) z

/-- Lazy `.*?` search up to an arbitrary closing literal (newline-free gap). -/
def lazyFindCloseGen (s : List Char) (closeT : List Char) : Option Nat :=
  match s with
  | [] => none
  | c :: rest =>
    if closeT.isPrefixOf s then some 0
    else if c = '\n' then none
    else (lazyFindCloseGen rest closeT).map (fun n => n + 1)

/-- First-occurrence replacement of the span between an opening and a closing
literal, modelling the non-global regexes `/<Title>.*?<\/Title>/` and
friends: find the first opening tag, then the shortest newline-free run to
the closing tag. -/
def replaceTagFirst (s : List Char) (openT closeT rep : List Char) : List Char :=
  match s with
  | [] => []
  | c :: rest =>
    if openT.isPrefixOf s then
      match lazyFindCloseGen (s.drop openT.length) closeT with
      | some k => rep ++ s.drop (openT.length + k + closeT.length)
      | none => c :: replaceTagFirst rest openT closeT rep
    else c :: replaceTagFirst rest openT closeT rep

/-- `updateAppXml()`: rewrites `<Title>` and `<Subject>` in `docProps/app.xml`
when the corresponding metadata field is truthy (non-empty). -/
def updateAppXml (z : Container) (metadata : ExpMetadata) : Container :=
  match getPart z "docProps/app.xml" with
  | none => z
  | some appXml =>
    let x1 := if metadata.title ≠ "" then
        String.mk (replaceTagFirst appXml.toList "<Title>".toList "</Title>".toList
          ("<Title>".toList ++ metadata.title.toList ++ "</Title>".toList))
      else appXml
    let x2 := if metadata.subject ≠ "" then
        String.mk (replaceTagFirst x1.toList "<Subject>".toList "</Subject>".toList
          ("<Subject>".toList ++ metadata.subject.toList ++ "</Subject>".toList))
      else x1
    setPart z "docProps/app.xml" x2

/-- `updateCoreXml()`: rewrites `<dcterms:modified>` in `docProps/core.xml`
to the current time, passed in as `now`. -/
def updateCoreXml (z : Container) (now : String) : Container :=
  match getPart z "docProps/core.xml" with
  | none => z
  | some coreXml =>
    setPart z "docProps/core.xml"
      (String.mk (replaceTagFirst coreXml.toList
        "<dcterms:modified>".toList "</dcterms:modified>".toList
        ("<dcterms:modified>".toList ++ now.toList ++ "</dcterms:modified>".toList)))

/-- `exportPPTX()`: copy the original structure, update the slides, update the
metadata, serialize.  Copying every part byte-for-byte makes the output
container start as the original one. -/
def exportPPTX (doc : ExpDoc) (originalZip : Container) (now : String) : Container :=
  let z := originalZip
  let z := updateSlides z originalZip doc
  let z := updateAppXml z doc.metadata
  updateCoreXml z now

end PPTXExporter

/-! ## Derived notions and concrete scenarios used by the theorems -/

/-- Perform a sequence of recorded mutations on a tracker. -/
def recordMany (s : TrackerState) (rs : List ChangeRecord) : TrackerState :=
  rs.foldl ChangeTracker.recordChange s

/-- The tracker's structural invariant: the cursor lies in `[-1, length-1]`
and the history never exceeds the capacity. -/
def TrackerInv (s : TrackerState) : Prop :=
  -1 ≤ s.currentIndex ∧ s.currentIndex < (s.changes.length : Int) ∧
    s.changes.length ≤ s.maxUndoSteps

/-- The loaded document of the C1 scenario: one slide holding one text
element whose content object (number 0 in the content heap) reads "Hello". -/
def c1Elem : Element :=
  { id := "textbox-0", etype := "text", contentRef := 0, posRef := 0, sizeRef := 0, style := [] }

def c1Slide : EditorSlide := { id := "slide-1", slideNumber := 1, elements := [c1Elem] }

def c1Init : EditorState :=
  { contentHeap := ["Hello"], posHeap := [(0, 0)], sizeHeap := [(0, 0)],
    doc := some { slides := [c1Slide] },
    currentSlide := 0, enableUndoRedo := true,
    tracker := ChangeTracker.mkTracker 50 }

/-- The C1 scenario: `updateText("textbox-0", "World")` on the loaded state. -/
def c1After : EditorState := PPTXEditor.updateText c1Init "textbox-0" "World"

/-- An editor with no loaded document (the state right after construction). -/
def noDocState : EditorState :=
  { contentHeap := [], posHeap := [], sizeHeap := [], doc := none,
    currentSlide := 0, enableUndoRedo := true, tracker := ChangeTracker.mkTracker 50 }

/-- A document whose current-slide index points past the only slide. -/
def badSlideState : EditorState :=
  { contentHeap := ["Hello"], posHeap := [(0, 0)], sizeHeap := [(0, 0)],
    doc := some { slides := [c1Slide] },
    currentSlide := 3, enableUndoRedo := true, tracker := ChangeTracker.mkTracker 50 }

/-- A one-run text body: `p:txBody / a:p / a:r / a:t`. -/
def mkTxBody (t : String) : XNode :=
  .elem "p:txBody" [] [.elem "a:p" [] [.elem "a:r" [] [.elem "a:t" [] [.text t]]]]

/-- Shape-tree children of the C3 failing input, in document order
`[shape "A", picture, shape "B"]`. -/
def spA : XNode := .elem "p:sp" [] [.elem "p:spPr" [] [], mkTxBody "A"]

def spB : XNode := .elem "p:sp" [] [.elem "p:spPr" [] [], mkTxBody "B"]

def picNode : XNode :=
  .elem "p:pic" [] [.elem "p:spPr" [] [],
    .elem "p:blipFill" [] [.elem "a:blip" [("r:embed", "rId2")] []]]

def c3SpTree : XNode := .elem "p:spTree" [] [spA, picNode, spB]

/-- The shape tree of the claim's own example, one child of each kind in
document order `[shape, picture, textbox]`. -/
def txBoxC : XNode := .elem "p:txBox" [] [.elem "p:spPr" [] [], mkTxBody "C"]

def c3SpTreeExample : XNode := .elem "p:spTree" [] [spA, picNode, txBoxC]

/-- The C2 scenario: a slide whose only element is a text box whose text is
split over two runs (`He` + `llo`). -/
def c2TxBox : XNode :=
  .elem "p:txBox" [] [.elem "p:spPr" [] [],
    .elem "p:txBody" [] [.elem "a:p" [] [.elem "a:r" [] [.elem "a:t" [] [.text "He"]],
                                         .elem "a:r" [] [.elem "a:t" [] [.text "llo"]]]]]

def c2SpTree : XNode := .elem "p:spTree" [] [c2TxBox]

/-- The slide part's XML text corresponding to `c2SpTree`. -/
def c2SlideXml : String :=
  "<p:sld><p:cSld><p:spTree><p:txBox><p:spPr></p:spPr><p:txBody><a:p><a:r><a:t>He</a:t></a:r><a:r><a:t>llo</a:t></a:r></a:p></p:txBody></p:txBox></p:spTree></p:cSld></p:sld>"

/-- The original container of the C2 scenario. -/
def c2Orig : Container :=
  [("[Content_Types].xml", "CT"),
   ("ppt/slides/slide1.xml", c2SlideXml),
   ("ppt/media/image1.png", "PNGBYTES")]

/-- The document as loaded from `c2Orig` (the slide's elements are exactly
what the decoder produces from the slide tree), with no mutation applied. -/
def c2Doc : PPTXExporter.ExpDoc :=
  { slides := [{ slideNumber := 1,
                 elements := PPTXParser.extractElements (PPTXParser.xmlToObject 32 c2SpTree) }],
    metadata := { title := "", subject := "" } }

/-- The exported container of the C2 scenario. -/
def c2Exported : Container := PPTXExporter.exportPPTX c2Doc c2Orig "2026-01-01T00:00:00Z"

/-- An unchanged, as-loaded text element used by the C8 counterexample. -/
def c8Elem : PPTXParser.PElem :=
  { id := "textbox-0", etype := "text", x := none, y := none, width := none, height := none,
    shapeType := none, textContent := "Z", imageId := none,
    style := { backgroundColor := none, fontSize := none, color := none }, zIndex := 0 }

/-! ## Theorems -/

/-- Claim C1 (code bug): in the Hello/World scenario the change history does
have length 1 with kind "update" and `newState.content.text = "World"`, but
because `previousState` is the shallow copy `\x7b...element\x7d` it shares the
mutated content object: `previousState.content.text` reads "World", not
"Hello" as the claim states, and although `undo()` returns `true` the
element's text still reads "World" afterwards (and `redo()` trivially keeps
"World").  This theorem evaluates the embedded code at the failing input. -/
theorem c1_snapshot_aliasing_bug :
    (PPTXEditor.getChangeHistoryE c1After).length = 1 ∧
    ((PPTXEditor.getChangeHistoryE c1After).get? 0).map ChangeRecord.rtype = some "update" ∧
    PPTXEditor.recordStateText c1After
      (((PPTXEditor.getChangeHistoryE c1After).get? 0).bind ChangeRecord.previousState)
      = some "World" ∧
    PPTXEditor.recordStateText c1After
      (((PPTXEditor.getChangeHistoryE c1After).get? 0).bind ChangeRecord.newState)
      = some "World" ∧
    (PPTXEditor.undoE c1After).1 = true ∧
    PPTXEditor.elementText (PPTXEditor.undoE c1After).2 0 "textbox-0" = some "World" ∧
    PPTXEditor.elementText (PPTXEditor.redoE (PPTXEditor.undoE c1After).2).2 0 "textbox-0"
      = some "World" := by
  decide

/-- Claim C3 (code bug): the decoder does not iterate the shape tree's direct
children in document order — the part codec groups children by tag name, so
for the document order `[shape "A", picture, shape "B"]` the decoder emits
`[shape "A", shape "B", picture]` with z-orders 0, 1, 2 in that grouped
order: the picture (document position 1) receives z-order 2 and the second
shape (document position 2) receives z-order 1.  On the claim's own example
`[shape, picture, textbox]` — one child of each tag — the grouped order
coincides with document order.  This theorem evaluates the embedded decoder
at both inputs. -/
theorem c3_zorder_grouped_by_tag :
    (PPTXParser.extractElements (PPTXParser.xmlToObject 32 c3SpTree)).map
        (fun e => (e.etype, e.textContent, e.zIndex))
      = [("shape", "A", 0), ("shape", "B", 1), ("image", "", 2)] ∧
    (PPTXParser.extractElements (PPTXParser.xmlToObject 32 c3SpTree)).map
        (fun e => (e.etype, e.textContent, e.zIndex))
      ≠ [("shape", "A", 0), ("image", "", 1), ("shape", "B", 2)] ∧
    (PPTXParser.extractElements (PPTXParser.xmlToObject 32 c3SpTreeExample)).map
        (fun e => (e.etype, e.zIndex))
      = [("shape", 0), ("image", 1), ("text", 2)] := by
  decide

/-- When the pattern is non-empty and matches at the front, first-occurrence
replacement rewrites the front. -/
theorem replaceFirstStr_at_front (s pat rep : List Char) (hne : pat ≠ [])
    (h : pat.isPrefixOf s = true) :
    PPTXParser.replaceFirstStr s pat rep = rep ++ s.drop pat.length := by
  cases s with
  | nil =>
    cases pat with
    | nil => exact absurd rfl hne
    | cons p ps => simp [List.isPrefixOf] at h
  | cons c rest =>
    unfold PPTXParser.replaceFirstStr
    simp [h]

/-- Claim C9: relative image-target resolution — a `../`-prefixed target is
rewritten to `ppt/` + remainder (the package root in the sense of the spec's
rule), a `./`-prefixed target to `ppt/slides/` + remainder (the slides
folder), and a target with neither prefix (and not already `ppt/`-absolute)
is resolved against the package root as `ppt/` + target. -/
theorem c9_image_path_resolution (rest : List Char) (t : String) :
    PPTXParser.resolveImagePath (String.mk ('.' :: '.' :: '/' :: rest))
      = String.mk ("ppt/".toList ++ rest) ∧
    PPTXParser.resolveImagePath (String.mk ('.' :: '/' :: rest))
      = String.mk ("ppt/slides/".toList ++ rest) ∧
    (PPTXParser.strStartsWith t "../" = false →
     PPTXParser.strStartsWith t "./" = false →
     PPTXParser.strStartsWith t "ppt/" = false →
     PPTXParser.resolveImagePath t = "ppt/" ++ t) := by
  refine ⟨?_, ?_, ?_⟩
  · have hpre : ("../".toList).isPrefixOf ('.' :: '.' :: '/' :: rest) = true := by
      simp [List.isPrefixOf]
    unfold PPTXParser.resolveImagePath
    rw [if_pos]
    · rw [replaceFirstStr_at_front _ _ _ (by decide) (by simp [List.isPrefixOf])]
      rfl
    · simp [PPTXParser.strStartsWith, List.isPrefixOf]
  · have hpre : ("./".toList).isPrefixOf ('.' :: '/' :: rest) = true := by
      simp [List.isPrefixOf]
    have hnot : PPTXParser.strStartsWith (String.mk ('.' :: '/' :: rest)) "../" = false := by
      simp [PPTXParser.strStartsWith, List.isPrefixOf]
    unfold PPTXParser.resolveImagePath
    rw [if_neg (by simp [hnot]), if_pos]
    · rw [replaceFirstStr_at_front _ _ _ (by decide) (by simp [List.isPrefixOf])]
      rfl
    · simp [PPTXParser.strStartsWith, List.isPrefixOf]
  · intro h1 h2 h3
    unfold PPTXParser.resolveImagePath
    simp [h1, h2, h3]

/-- Witness for C9 at concrete paths. -/
theorem c9_image_path_resolution_witness :
    PPTXParser.resolveImagePath (String.mk ('.' :: '.' :: '/' :: "media/image1.png".toList))
      = String.mk ("ppt/".toList ++ "media/image1.png".toList) ∧
    PPTXParser.resolveImagePath "media/image1.png" = "ppt/" ++ "media/image1.png" :=
  ⟨(c9_image_path_resolution "media/image1.png".toList "media/image1.png").1,
   (c9_image_path_resolution "media/image1.png".toList "media/image1.png").2.2
     (by decide) (by decide) (by decide)⟩

/-- `recordChange` on a state whose cursor sits at the tail of a history of
length at most the capacity: append, and evict the head exactly when the
capacity was already reached. -/
theorem recordChange_at_tail (l : List ChangeRecord) (N : Nat) (c : ChangeRecord) :
    ChangeTracker.recordChange ⟨l, N, (l.length : Int) - 1⟩ c =
      if l.length + 1 > N then ⟨(l ++ [c]).drop 1, N, (l.length : Int) - 1⟩
      else ⟨l ++ [c], N, (l.length : Int)⟩ := by
  unfold ChangeTracker.recordChange
  have ht : ((l.length : Int) - 1 + 1).toNat = l.length := by omega
  simp only [ht, List.take_length, List.length_append, List.length_singleton]
  split_ifs with h1
  · congr 1
    omega
  · congr 1
    omega

/-- Folding `recordChange` over a record list, starting from a tail state:
the history becomes the last `capacity` entries of the concatenation and the
cursor stays at the tail. -/
theorem recordMany_from_tail (N : Nat) (rs : List ChangeRecord) :
    ∀ l : List ChangeRecord, l.length ≤ N →
    recordMany ⟨l, N, (l.length : Int) - 1⟩ rs =
      ⟨(l ++ rs).drop ((l ++ rs).length - N), N,
       ((((l ++ rs).drop ((l ++ rs).length - N)).length : Int) - 1)⟩ := by
  induction rs with
  | nil =>
    intro l h
    have h1 : l.length - N = 0 := by omega
    simp only [recordMany, List.foldl_nil, List.append_nil, h1, List.drop_zero]
  | cons c rs ih =>
    intro l h
    have hstep : recordMany ⟨l, N, (l.length : Int) - 1⟩ (c :: rs)
        = recordMany (ChangeTracker.recordChange ⟨l, N, (l.length : Int) - 1⟩ c) rs := rfl
    rw [hstep, recordChange_at_tail l N c]
    by_cases hc : l.length + 1 > N
    · rw [if_pos hc]
      have hl : l.length = N := by omega
      have hlen1 : ((l ++ [c]).drop 1).length = N := by
        simp only [List.length_drop, List.length_append, List.length_singleton]
        omega
      have hcur : (l.length : Int) - 1 = ((((l ++ [c]).drop 1).length : Int) - 1) := by
        rw [hlen1, hl]
      rw [hcur, ih ((l ++ [c]).drop 1) (le_of_eq hlen1)]
      have hsplit : (l ++ [c]).drop 1 ++ rs = (l ++ c :: rs).drop 1 := by
        cases l <;> simp
      rw [hsplit]
      have hdd : ((l ++ c :: rs).drop 1).drop (((l ++ c :: rs).drop 1).length - N)
          = (l ++ c :: rs).drop ((l ++ c :: rs).length - N) := by
        rw [List.drop_drop]
        congr 1
        simp only [List.length_drop, List.length_append, List.length_cons]
        omega
      rw [hdd]
    · rw [if_neg hc]
      have h2 : (l ++ [c]).length ≤ N := by simp; omega
      have hcur : (l.length : Int) = (((l ++ [c]).length : Int) - 1) := by simp
      rw [hcur, ih (l ++ [c]) h2]
      have hassoc : (l ++ [c]) ++ rs = l ++ c :: rs := by simp
      rw [hassoc]

/-- Claim C5: a tracker of capacity `N`, fed `N + 5` recorded mutations from
the fresh state, retains exactly `N` history entries — the last `N` recorded,
the oldest 5 evicted — and the cursor points at the most recent record. -/
theorem c5_bounded_history (N : Nat) (rs : List ChangeRecord) (h : rs.length = N + 5) :
    (recordMany (ChangeTracker.mkTracker N) rs).changes = rs.drop 5 ∧
    (recordMany (ChangeTracker.mkTracker N) rs).changes.length = N ∧
    (recordMany (ChangeTracker.mkTracker N) rs).currentIndex
      = ((recordMany (ChangeTracker.mkTracker N) rs).changes.length : Int) - 1 := by
  have h0 : ChangeTracker.mkTracker N
      = ⟨([] : List ChangeRecord), N, (([] : List ChangeRecord).length : Int) - 1⟩ := by
    simp [ChangeTracker.mkTracker]
  rw [h0, recordMany_from_tail N rs [] (by simp)]
  have h5 : (([] : List ChangeRecord) ++ rs).length - N = 5 := by simp; omega
  rw [h5]
  refine ⟨by simp, ?_, by simp⟩
  simp only [List.nil_append, List.length_drop]
  omega

/-- Witness for C5 at capacity 2 and seven recorded mutations. -/
theorem c5_bounded_history_witness :
    (recordMany (ChangeTracker.mkTracker 2)
        (List.replicate 7 ⟨"add", "e", "s", none, none, "d"⟩)).changes
      = (List.replicate 7 (⟨"add", "e", "s", none, none, "d"⟩ : ChangeRecord)).drop 5 :=
  (c5_bounded_history 2 (List.replicate 7 ⟨"add", "e", "s", none, none, "d"⟩) (by decide)).1

/-- `recordChange` with its let-bindings expanded (definitional). -/
theorem recordChange_def (s : TrackerState) (c : ChangeRecord) :
    ChangeTracker.recordChange s c =
      if (s.changes.take (s.currentIndex + 1).toNat ++ [c]).length > s.maxUndoSteps then
        ⟨(s.changes.take (s.currentIndex + 1).toNat ++ [c]).drop 1, s.maxUndoSteps,
         s.currentIndex + 1 - 1⟩
      else
        ⟨s.changes.take (s.currentIndex + 1).toNat ++ [c], s.maxUndoSteps,
         s.currentIndex + 1⟩ := rfl

/-- After any `recordChange` from a state whose cursor is at least `-1`, the
cursor is back at the tail, so nothing is redoable. -/
theorem canRedo_after_record (s : TrackerState) (c : ChangeRecord)
    (h : -1 ≤ s.currentIndex) :
    ChangeTracker.canRedo (ChangeTracker.recordChange s c) = false := by
  rw [recordChange_def]
  unfold ChangeTracker.canRedo
  split_ifs with h1 <;>
    simp only [decide_eq_false_iff_not, not_lt, List.length_drop, List.length_append,
      List.length_take, List.length_singleton] <;>
    omega

/-- Claim C6: recording truncates the redo branch — every record surviving a
`recordChange` is the new record or one of the records at or before the
cursor — and afterwards `canRedo()` is false and `redo()` returns null; in
particular this holds for the state right after a successful `undo()`. -/
theorem c6_redo_branch_truncation (s : TrackerState) (c : ChangeRecord) :
    (-1 ≤ s.currentIndex →
      (∀ r ∈ (ChangeTracker.recordChange s c).changes,
        r = c ∨ r ∈ s.changes.take (s.currentIndex + 1).toNat) ∧
      ChangeTracker.canRedo (ChangeTracker.recordChange s c) = false ∧
      (ChangeTracker.redoT (ChangeTracker.recordChange s c)).1 = none) ∧
    (∀ r s1, ChangeTracker.undoT s = (some r, s1) →
      ChangeTracker.canRedo (ChangeTracker.recordChange s1 c) = false ∧
      (ChangeTracker.redoT (ChangeTracker.recordChange s1 c)).1 = none) := by
  constructor
  · intro h
    refine ⟨?_, canRedo_after_record s c h, ?_⟩
    · intro r hr
      rw [recordChange_def] at hr
      have hr2 : r ∈ s.changes.take (s.currentIndex + 1).toNat ++ [c] := by
        split_ifs at hr with h1
        · exact List.mem_of_mem_drop hr
        · exact hr
      rcases List.mem_append.mp hr2 with h3 | h3
      · exact Or.inr h3
      · exact Or.inl (List.mem_singleton.mp h3)
    · simp [ChangeTracker.redoT, canRedo_after_record s c h]
  · intro r s1 hu
    unfold ChangeTracker.undoT at hu
    split_ifs at hu with hcu
    · have hs1 : s1 = { s with currentIndex := s.currentIndex - 1 } := by
        have := congrArg Prod.snd hu
        simpa using this.symm
      have hge : -1 ≤ s1.currentIndex := by
        rw [hs1]
        show -1 ≤ s.currentIndex - 1
        simp only [ChangeTracker.canUndo, ge_iff_le, decide_eq_true_eq] at hcu
        omega
      exact ⟨canRedo_after_record s1 c hge,
        by simp [ChangeTracker.redoT, canRedo_after_record s1 c hge]⟩
    · simp at hu

/-- Witness for C6: a one-record tracker at its tail. -/
theorem c6_redo_branch_truncation_witness :
    ChangeTracker.canRedo
      (ChangeTracker.recordChange
        ⟨[⟨"add", "e", "s", none, none, "d"⟩], 50, 0⟩
        ⟨"update", "e", "s", none, none, "d2"⟩) = false :=
  ((c6_redo_branch_truncation ⟨[⟨"add", "e", "s", none, none, "d"⟩], 50, 0⟩
      ⟨"update", "e", "s", none, none, "d2"⟩).1 (by decide)).2.1

/-- Claim C7: on any tracker state satisfying the cursor bounds, `undo()`
fails (returns nothing) exactly when the cursor is below 0 and otherwise
returns the record at the cursor while decrementing the cursor; `redo()`
fails exactly when the cursor is at the tail of the log and otherwise
increments the cursor and returns the record now pointed to. -/
theorem c7_undo_redo_contract (s : TrackerState)
    (h1 : -1 ≤ s.currentIndex) (h2 : s.currentIndex < (s.changes.length : Int)) :
    ((ChangeTracker.undoT s).1 = none ↔ s.currentIndex < 0) ∧
    (0 ≤ s.currentIndex →
      (ChangeTracker.undoT s).1 = s.changes.get? s.currentIndex.toNat ∧
      (s.changes.get? s.currentIndex.toNat).isSome = true ∧
      (ChangeTracker.undoT s).2 = { s with currentIndex := s.currentIndex - 1 }) ∧
    ((ChangeTracker.redoT s).1 = none ↔ s.currentIndex = (s.changes.length : Int) - 1) ∧
    (s.currentIndex < (s.changes.length : Int) - 1 →
      (ChangeTracker.redoT s).1 = s.changes.get? (s.currentIndex + 1).toNat ∧
      (s.changes.get? (s.currentIndex + 1).toNat).isSome = true ∧
      (ChangeTracker.redoT s).2 = { s with currentIndex := s.currentIndex + 1 }) := by
  have hsome : ∀ n : Nat, n < s.changes.length → (s.changes.get? n).isSome = true := by
    intro n hn
    rw [List.get?_eq_get hn]
    rfl
  have hu1 : (ChangeTracker.undoT s).1 =
      if ChangeTracker.canUndo s then s.changes.get? s.currentIndex.toNat else none := by
    unfold ChangeTracker.undoT
    split_ifs <;> rfl
  have hr1 : (ChangeTracker.redoT s).1 =
      if ChangeTracker.canRedo s then s.changes.get? (s.currentIndex + 1).toNat else none := by
    unfold ChangeTracker.redoT
    split_ifs <;> rfl
  refine ⟨?_, ?_, ?_, ?_⟩
  · rw [hu1]
    by_cases hc : 0 ≤ s.currentIndex
    · have hcb : ChangeTracker.canUndo s = true := by
        simp [ChangeTracker.canUndo, hc]
      rw [if_pos hcb]
      constructor
      · intro hnone
        have hy := hsome s.currentIndex.toNat (by omega)
        rw [hnone] at hy
        exact absurd hy (by simp)
      · intro h0
        omega
    · have hcb : ChangeTracker.canUndo s = false := by
        simp only [ChangeTracker.canUndo, ge_iff_le, decide_eq_false_iff_not, not_le]
        omega
      rw [if_neg (by simp [hcb])]
      simp only [true_iff]
      omega
  · intro hge
    have hcb : ChangeTracker.canUndo s = true := by
      simp [ChangeTracker.canUndo, hge]
    refine ⟨?_, hsome s.currentIndex.toNat (by omega), ?_⟩ <;>
      simp [ChangeTracker.undoT, hcb]
  · rw [hr1]
    by_cases hc : s.currentIndex < (s.changes.length : Int) - 1
    · have hcb : ChangeTracker.canRedo s = true := by
        simp [ChangeTracker.canRedo, hc]
      rw [if_pos hcb]
      constructor
      · intro hnone
        have hy := hsome (s.currentIndex + 1).toNat (by omega)
        rw [hnone] at hy
        exact absurd hy (by simp)
      · intro heq
        omega
    · have hcb : ChangeTracker.canRedo s = false := by
        simp only [ChangeTracker.canRedo, decide_eq_false_iff_not, not_lt]
        omega
      rw [if_neg (by simp [hcb])]
      simp only [true_iff]
      omega
  · intro hlt
    have hcb : ChangeTracker.canRedo s = true := by
      simp [ChangeTracker.canRedo, hlt]
    refine ⟨?_, hsome (s.currentIndex + 1).toNat (by omega), ?_⟩ <;>
      simp [ChangeTracker.redoT, hcb]

/-- Witness for C7: a two-record tracker with the cursor on the first record. -/
theorem c7_undo_redo_contract_witness :
    (ChangeTracker.undoT
        ⟨[⟨"add", "e", "s", none, none, "d"⟩, ⟨"update", "e", "s", none, none, "d2"⟩], 50, 0⟩).1
      = some ⟨"add", "e", "s", none, none, "d"⟩ := by
  have h := (c7_undo_redo_contract
    ⟨[⟨"add", "e", "s", none, none, "d"⟩, ⟨"update", "e", "s", none, none, "d2"⟩], 50, 0⟩
    (by decide) (by decide)).2.1 (by decide)
  rw [h.1]
  decide

/-- Claim C10: for a tracker with capacity at least 1, every operation —
`recordChange`, `undo`, `redo`, `clearHistory`, `revertToChange`,
`revertAllChanges` — preserves the invariant that the cursor lies in
`[-1, length-1]` and that the history length never exceeds the capacity. -/
theorem c10_tracker_invariant_preservation (s : TrackerState) (c : ChangeRecord) (i : Int)
    (hcap : 1 ≤ s.maxUndoSteps) (hinv : TrackerInv s) :
    TrackerInv (ChangeTracker.recordChange s c) ∧
    TrackerInv (ChangeTracker.undoT s).2 ∧
    TrackerInv (ChangeTracker.redoT s).2 ∧
    TrackerInv (ChangeTracker.clearHistory s) ∧
    (∀ l s1, ChangeTracker.revertToChange s i = .ok (l, s1) → TrackerInv s1) ∧
    TrackerInv (ChangeTracker.revertAllChanges s).2 := by
  obtain ⟨hi1, hi2, hi3⟩ := hinv
  refine ⟨?_, ?_, ?_, ?_, ?_, ?_⟩
  · rw [recordChange_def]
    split_ifs with hcond <;>
      · simp only [TrackerInv, List.length_drop, List.length_append, List.length_take,
          List.length_singleton] at hcond ⊢
        omega
  · unfold ChangeTracker.undoT
    split_ifs with hc
    · simp only [ChangeTracker.canUndo, ge_iff_le, decide_eq_true_eq] at hc
      simp only [TrackerInv]
      refine ⟨by omega, by omega, hi3⟩
    · exact ⟨hi1, hi2, hi3⟩
  · unfold ChangeTracker.redoT
    split_ifs with hc
    · simp only [ChangeTracker.canRedo, decide_eq_true_eq] at hc
      simp only [TrackerInv]
      refine ⟨by omega, by omega, hi3⟩
    · exact ⟨hi1, hi2, hi3⟩
  · simp only [ChangeTracker.clearHistory, TrackerInv, List.length_nil]
    refine ⟨by omega, by omega, by omega⟩
  · intro l s1 hok
    unfold ChangeTracker.revertToChange at hok
    split_ifs at hok with hc
    simp only [Except.ok.injEq, Prod.mk.injEq] at hok
    rw [← hok.2]
    push_neg at hc
    simp only [TrackerInv]
    refine ⟨by omega, by omega, hi3⟩
  · simp only [ChangeTracker.revertAllChanges, ChangeTracker.clearHistory, TrackerInv,
      List.length_nil]
    refine ⟨by omega, by omega, by omega⟩

/-- Witness for C10 at a concrete in-invariant tracker state. -/
theorem c10_tracker_invariant_preservation_witness :
    TrackerInv (ChangeTracker.recordChange
      ⟨[⟨"add", "e", "s", none, none, "d"⟩], 5, 0⟩ ⟨"update", "e", "s", none, none, "d2"⟩) :=
  (c10_tracker_invariant_preservation ⟨[⟨"add", "e", "s", none, none, "d"⟩], 5, 0⟩
    ⟨"update", "e", "s", none, none, "d2"⟩ 0 (by decide)
    ⟨by decide, by decide, by decide⟩).1

/-- Claim C4 (counterexample): `addElement` does not no-op silently when the
document is missing — `addTextElement` throws `"No document loaded"` (and
`"No current slide"` when the slide is missing), contradicting the claim
that every mutating call including addElement no-ops without throwing. -/
theorem c4_counterexample_add_throws :
    PPTXEditor.addTextElement noDocState "New Text" 100 100 200 50 "text-1"
      = .error "No document loaded" ∧
    PPTXEditor.addTextElement badSlideState "New Text" 100 100 200 50 "text-1"
      = .error "No current slide" := by
  constructor <;> rfl

/-- Claim C4 as amended: `updateText`, `updateElementPosition`,
`updateElementSize`, `updateElementStyle` and `deleteElement` no-op silently
— returning the state unchanged, hence emitting no ChangeRecord — when the
document, the current slide, or the target element is missing, while
`addTextElement` instead throws when the document or the current slide is
missing. -/
theorem c4_mutation_noop_policy (s : EditorState) (elementId txt freshId : String)
    (x y w h : ℚ) (st : List (String × String)) :
    (PPTXEditor.getCurrentSlide s = none →
      PPTXEditor.updateText s elementId txt = s ∧
      PPTXEditor.updateElementPosition s elementId x y = s ∧
      PPTXEditor.updateElementSize s elementId w h = s ∧
      PPTXEditor.updateElementStyle s elementId st = s ∧
      PPTXEditor.deleteElement s elementId = s ∧
      (∃ msg, PPTXEditor.addTextElement s txt x y w h freshId = .error msg)) ∧
    (∀ sl, PPTXEditor.getCurrentSlide s = some sl →
      (∀ e ∈ sl.elements, e.id ≠ elementId) →
      PPTXEditor.updateText s elementId txt = s ∧
      PPTXEditor.updateElementPosition s elementId x y = s ∧
      PPTXEditor.updateElementSize s elementId w h = s ∧
      PPTXEditor.updateElementStyle s elementId st = s ∧
      PPTXEditor.deleteElement s elementId = s) := by
  constructor
  · intro hnone
    rcases hdoc : s.doc with - | d
    · refine ⟨?_, ?_, ?_, ?_, ?_, ?_⟩ <;>
        simp [PPTXEditor.updateText, PPTXEditor.updateElementPosition,
          PPTXEditor.updateElementSize, PPTXEditor.updateElementStyle,
          PPTXEditor.deleteElement, PPTXEditor.addTextElement, hdoc]
    · refine ⟨?_, ?_, ?_, ?_, ?_, ?_⟩ <;>
        simp [PPTXEditor.updateText, PPTXEditor.updateElementPosition,
          PPTXEditor.updateElementSize, PPTXEditor.updateElementStyle,
          PPTXEditor.deleteElement, PPTXEditor.addTextElement, hdoc, hnone]
  · intro sl hsl hmem
    rcases hdoc : s.doc with - | d
    · simp [PPTXEditor.getCurrentSlide, hdoc] at hsl
    · have hfind : sl.elements.find? (fun e => e.id = elementId) = none := by
        rw [List.find?_eq_none]
        intro e he
        simp [hmem e he]
      have hfidx : sl.elements.findIdx? (fun e => e.id = elementId) = none := by
        rw [List.findIdx?_eq_none_iff]
        intro e he
        simp [hmem e he]
      refine ⟨?_, ?_, ?_, ?_, ?_⟩ <;>
        simp [PPTXEditor.updateText, PPTXEditor.updateElementPosition,
          PPTXEditor.updateElementSize, PPTXEditor.updateElementStyle,
          PPTXEditor.deleteElement, hdoc, hsl, hfind, hfidx]

/-- Witness for C4 at concrete missing-document and missing-element states. -/
theorem c4_mutation_noop_policy_witness :
    PPTXEditor.updateText noDocState "e" "t" = noDocState ∧
    PPTXEditor.deleteElement c1Init "no-such-element" = c1Init := by
  constructor
  · exact ((c4_mutation_noop_policy noDocState "e" "t" "f" 1 2 3 4 []).1 (by rfl)).1
  · exact ((c4_mutation_noop_policy c1Init "no-such-element" "t" "f" 1 2 3 4 []).2
      c1Slide (by rfl) (by decide)).2.2.2.2

/-- Overwriting one part leaves every other part's lookup unchanged
(map branch of `setPart`). -/
theorem find?_map_overwrite (c : Container) (q v p : String) (h : p ≠ q) :
    (c.map (fun r => if r.1 = q then (r.1, v) else r)).find? (fun r => r.1 = p)
      = c.find? (fun r => r.1 = p) := by
  induction c with
  | nil => rfl
  | cons a c ih =>
    simp only [List.map_cons]
    by_cases hq : a.1 = q
    · have hp : ¬ (a.1 = p) := fun hh => h (by rw [← hh]; exact hq)
      rw [if_pos hq, List.find?_cons_of_neg _ (by simpa using hp),
          List.find?_cons_of_neg _ (by simpa using hp)]
      exact ih
    · by_cases hp : a.1 = p
      · rw [if_neg hq, List.find?_cons_of_pos _ (by simpa using hp),
            List.find?_cons_of_pos _ (by simpa using hp)]
      · rw [if_neg hq, List.find?_cons_of_neg _ (by simpa using hp),
            List.find?_cons_of_neg _ (by simpa using hp)]
        exact ih

/-- Appending one part leaves every other part's lookup unchanged
(append branch of `setPart`). -/
theorem find?_append_single (c : Container) (q v p : String) (h : p ≠ q) :
    (c ++ [(q, v)]).find? (fun r => r.1 = p) = c.find? (fun r => r.1 = p) := by
  induction c with
  | nil =>
    rw [List.nil_append,
        List.find?_cons_of_neg _ (by simp; exact fun hh => h hh.symm)]
  | cons a c ih =>
    rw [List.cons_append]
    by_cases hp : a.1 = p
    · rw [List.find?_cons_of_pos _ (by simpa using hp),
          List.find?_cons_of_pos _ (by simpa using hp)]
    · rw [List.find?_cons_of_neg _ (by simpa using hp),
          List.find?_cons_of_neg _ (by simpa using hp)]
      exact ih

/-- Writing a part never changes the content read back at a different path. -/
theorem getPart_setPart_ne (c : Container) (q v p : String) (h : p ≠ q) :
    getPart (setPart c q v) p = getPart c p := by
  unfold setPart getPart
  split_ifs with hany
  · rw [find?_map_overwrite c q v p h]
  · rw [find?_append_single c q v p h]

/-- The slide-update pass writes only at slide part paths. -/
theorem getPart_updateSlides_ne (orig : Container) (p : String) :
    ∀ (sls : List PPTXExporter.ExpSlide) (z : Container),
      (∀ sl ∈ sls, p ≠ PPTXExporter.findSlidePath sl.slideNumber) →
      getPart (sls.foldl (fun z sl => PPTXExporter.updateSlide z orig sl) z) p
        = getPart z p := by
  intro sls
  induction sls with
  | nil =>
    intro z _
    rfl
  | cons sl sls ih =>
    intro z h
    have h1 := h sl (List.mem_cons_self sl sls)
    have h2 : ∀ x ∈ sls, p ≠ PPTXExporter.findSlidePath x.slideNumber :=
      fun x hx => h x (List.mem_cons_of_mem sl hx)
    simp only [List.foldl_cons]
    rw [ih _ h2]
    unfold PPTXExporter.updateSlide
    cases getPart orig (PPTXExporter.findSlidePath sl.slideNumber) with
    | none => rfl
    | some xml => exact getPart_setPart_ne z _ _ p h1

/-- The metadata passes write only at the two metadata part paths. -/
theorem getPart_updateAppXml_ne (z : Container) (md : PPTXExporter.ExpMetadata)
    (p : String) (h : p ≠ "docProps/app.xml") :
    getPart (PPTXExporter.updateAppXml z md) p = getPart z p := by
  unfold PPTXExporter.updateAppXml
  cases getPart z "docProps/app.xml" with
  | none => rfl
  | some xml => exact getPart_setPart_ne z _ _ p h

theorem getPart_updateCoreXml_ne (z : Container) (now p : String)
    (h : p ≠ "docProps/core.xml") :
    getPart (PPTXExporter.updateCoreXml z now) p = getPart z p := by
  unfold PPTXExporter.updateCoreXml
  cases getPart z "docProps/core.xml" with
  | none => rfl
  | some xml => exact getPart_setPart_ne z _ _ p h

set_option maxRecDepth 4000 in
/-- Claim C2 (counterexample): exporting immediately after loading, with zero
mutations, does not leave every slide part byte-identical.  The container
`c2Orig` holds one slide whose only element is a text box whose text "Hello"
is split over two runs; `c2Doc` is the document exactly as the decoder loads
it.  Export rewrites both `a:t` nodes of the slide to the full text, so the
exported slide part differs from the original. -/
theorem c2_counterexample_slide_rewritten :
    getPart c2Exported "ppt/slides/slide1.xml" ≠ getPart c2Orig "ppt/slides/slide1.xml" ∧
    c2Doc.slides.map (fun sl => sl.elements.map (fun e => (e.etype, e.textContent)))
      = [[("text", "Hello")]] ∧
    getPart c2Exported "ppt/slides/slide1.xml"
      = some "<p:sld><p:cSld><p:spTree><p:txBox><p:spPr></p:spPr><p:txBody><a:p><a:r><a:t>Hello</a:t></a:r><a:r><a:t>Hello</a:t></a:r></a:p></p:txBody></p:txBox></p:spTree></p:cSld></p:sld>" := by
  refine ⟨by decide, by decide, by decide⟩

/-- Claim C2 as amended: with zero mutations, export leaves every part other
than the slide XML parts of the document's slides and the two metadata parts
(`docProps/app.xml`, `docProps/core.xml`) byte-identical to the original;
slide XML parts are rewritten by the text-substitution pass and may differ
even with zero mutations. -/
theorem c2_export_preserves_other_parts (doc : PPTXExporter.ExpDoc) (orig : Container)
    (now p : String)
    (h1 : ∀ sl ∈ doc.slides, p ≠ PPTXExporter.findSlidePath sl.slideNumber)
    (h2 : p ≠ "docProps/app.xml") (h3 : p ≠ "docProps/core.xml") :
    getPart (PPTXExporter.exportPPTX doc orig now) p = getPart orig p := by
  unfold PPTXExporter.exportPPTX
  rw [getPart_updateCoreXml_ne _ _ _ h3, getPart_updateAppXml_ne _ _ _ h2]
  exact getPart_updateSlides_ne orig p doc.slides orig h1

/-- Witness for C2: the media part of the concrete scenario survives export
byte-identically. -/
theorem c2_export_preserves_other_parts_witness :
    getPart (PPTXExporter.exportPPTX c2Doc c2Orig "2026-01-01T00:00:00Z")
        "ppt/media/image1.png"
      = getPart c2Orig "ppt/media/image1.png" :=
  c2_export_preserves_other_parts c2Doc c2Orig "2026-01-01T00:00:00Z" "ppt/media/image1.png"
    (by decide) (by decide) (by decide)

/-- Folding the per-element export updates over elements none of which is a
text element leaves the slide XML untouched. -/
theorem updateSlideXML_no_text (es : List PPTXParser.PElem) :
    ∀ xml : String, (∀ e ∈ es, e.etype ≠ "text") →
    (es.foldl (fun xml element =>
      if element.etype = "text" then PPTXExporter.updateTextElement xml element
      else if element.etype = "image" then PPTXExporter.updateImageElement xml element
      else if element.etype = "shape" then PPTXExporter.updateShapeElement xml element
      else xml) xml) = xml := by
  induction es with
  | nil =>
    intro xml _
    rfl
  | cons e es ih =>
    intro xml h
    have he := h e (List.mem_cons_self e es)
    simp only [List.foldl_cons, if_neg he]
    have hrest : ∀ x ∈ es, x.etype ≠ "text" := fun x hx => h x (List.mem_cons_of_mem e hx)
    split_ifs <;> exact ih xml hrest

set_option maxRecDepth 4000 in
/-- Claim C8 (counterexample): the textual substitution is applied with the
global regex flag, so for a text-bearing run it replaces every matching text
node, not only the first: on `<a:t>x</a:t><a:t>y</a:t>` with element text
"Z" both nodes become `<a:t>Z</a:t>`, whereas a first-match-only
substitution would leave `<a:t>y</a:t>` in place.  It is also applied to
every text element, changed or not (`c2Exported` rewrites an unchanged
slide). -/
theorem c8_counterexample_all_nodes_replaced :
    PPTXExporter.updateTextElement "<a:t>x</a:t><a:t>y</a:t>" c8Elem
      = "<a:t>Z</a:t><a:t>Z</a:t>" ∧
    ("<a:t>Z</a:t><a:t>Z</a:t>" : String) ≠ "<a:t>Z</a:t><a:t>y</a:t>" := by
  refine ⟨by decide, by decide⟩

set_option maxRecDepth 4000 in
/-- Claim C8 as amended: during export the re-encoder applies the textual
substitution for every text element of the slide regardless of whether it
changed, and each substitution replaces every matching text node of the
slide XML with that element's text; non-text elements trigger no textual
substitution, and the geometry updates for shape and image elements are
no-ops. -/
theorem c8_export_substitution_behaviour :
    (∀ (xml : String) (e : PPTXParser.PElem), PPTXExporter.updateImageElement xml e = xml) ∧
    (∀ (xml : String) (e : PPTXParser.PElem), PPTXExporter.updateShapeElement xml e = xml) ∧
    (∀ (xml : String) (sl : PPTXExporter.ExpSlide),
      (∀ e ∈ sl.elements, e.etype ≠ "text") →
      PPTXExporter.updateSlideXML xml sl = xml) ∧
    PPTXExporter.updateSlideXML c2SlideXml
        { slideNumber := 1,
          elements := PPTXParser.extractElements (PPTXParser.xmlToObject 32 c2SpTree) }
      = "<p:sld><p:cSld><p:spTree><p:txBox><p:spPr></p:spPr><p:txBody><a:p><a:r><a:t>Hello</a:t></a:r><a:r><a:t>Hello</a:t></a:r></a:p></p:txBody></p:txBox></p:spTree></p:cSld></p:sld>" := by
  refine ⟨fun _ _ => rfl, fun _ _ => rfl, ?_, by decide⟩
  intro xml sl h
  exact updateSlideXML_no_text sl.elements xml h

/-- Witness for C8: a slide holding only an image element exports its XML
unchanged. -/
theorem c8_export_substitution_behaviour_witness :
    PPTXExporter.updateSlideXML "<p:sld>raw</p:sld>"
        { slideNumber := 1,
          elements := [{ id := "picture-0", etype := "image", x := none, y := none,
                         width := none, height := none, shapeType := none, textContent := "",
                         imageId := some "rId2",
                         style := { backgroundColor := none, fontSize := none, color := none },
                         zIndex := 0 }] }
      = "<p:sld>raw</p:sld>" :=
  c8_export_substitution_behaviour.2.2.1 "<p:sld>raw</p:sld>"
    { slideNumber := 1,
      elements := [{ id := "picture-0", etype := "image", x := none, y := none,
                     width := none, height := none, shapeType := none, textContent := "",
                     imageId := some "rId2",
                     style := { backgroundColor := none, fontSize := none, color := none },
                     zIndex := 0 }] }
    (by decide)
